import Mathlib

/-!
Shallow embedding of src/assets/layouts/convertuiJsonChildToMultipleJson.py.

The script reads a JSON document, extracts the sequence stored under
layout.children, resolves a display name for each child through a small
recursive heuristic, sanitizes the name into a filesystem token and writes
each child back as its own single-child JSON document.

Modelling conventions:
 - JSON values as parsed by Python's json module are modelled by the
   inductive type Json below.  Python None (JSON null) is Json.null; the
   script's name extractor returns None for absence, which coincides with
   JSON null, so the extractor is modelled as a function into Json.
 - Python dicts built by json.load are modelled as association lists in
   insertion order; duplicate keys in a JSON text collapse to the last
   occurrence, so key lookup is modelled by lookupLast.  Documents produced
   by a real parse have pairwise distinct keys in every object.
 - Python truthiness (the implicit bool() in `if name:`) is Json.truthy.
 - Numbers are modelled as integers; the claims under study only need the
   number 0 and small positive numbers, none of the float behaviour.
 - Operations that raise a Python exception (TypeError from `x in n` on a
   number, TypeError/AttributeError from sanitizing a non-text name) are
   modelled with Except PyExc.
 - Character classification (str.isalnum, the whitespace set of str.rstrip)
   is modelled on the ASCII range; every input in the claims is ASCII.
-/

inductive Json where
  | null : Json
  | bool (b : Bool) : Json
  | num (n : Int) : Json
  | str (s : String) : Json
  | arr (elems : List Json) : Json
  | obj (entries : List (String × Json)) : Json
deriving Repr

mutual

/-- Structural equality of JSON values, modelling Python == on values built
by json.load (the claims only compare values of identical Python types). -/
def Json.beq : Json → Json → Bool
  | Json.null, Json.null => true
  | Json.bool a, Json.bool b => a == b
  | Json.num a, Json.num b => a == b
  | Json.str a, Json.str b => a == b
  | Json.arr a, Json.arr b => Json.beqList a b
  | Json.obj a, Json.obj b => Json.beqKvs a b
  | _, _ => false

def Json.beqList : List Json → List Json → Bool
  | [], [] => true
  | a :: as, b :: bs => Json.beq a b && Json.beqList as bs
  | _, _ => false

def Json.beqKvs : List (String × Json) → List (String × Json) → Bool
  | [], [] => true
  | (k1, v1) :: as, (k2, v2) :: bs => k1 == k2 && Json.beq v1 v2 && Json.beqKvs as bs
  | _, _ => false

end

instance : BEq Json := ⟨Json.beq⟩

/-- Python exceptions that the script can raise and does not catch. -/
inductive PyExc where
  | typeError : PyExc
  | keyError : PyExc
deriving Repr, DecidableEq

/-- Key lookup in a parsed Python dict: the last binding of the key wins
(json.load keeps the last occurrence of a duplicated key). -/
def lookupLast (kvs : List (String × Json)) (k : String) : Option Json :=
  match kvs with
  | [] => none
  | kv :: rest =>
    match lookupLast rest k with
    | some v => some v
    | none => if kv.1 = k then some kv.2 else none

/-- Python truthiness of a JSON value: bool(v). -/
def Json.truthy : Json → Bool
  | Json.null => false
  | Json.bool b => b
  | Json.num n => n != 0
  | Json.str s => s != ""
  | Json.arr xs => !xs.isEmpty
  | Json.obj kvs => !kvs.isEmpty

theorem lookupLast_mem {kvs : List (String × Json)} {k : String} {v : Json}
    (h : lookupLast kvs k = some v) : ∃ p ∈ kvs, p.2 = v := by
  induction kvs with
  | nil => simp [lookupLast] at h
  | cons kv rest ih =>
    rw [lookupLast] at h
    cases hrest : lookupLast rest k with
    | some w =>
      rw [hrest] at h
      injection h with hw
      subst hw
      obtain ⟨p, hp, hpv⟩ := ih hrest
      exact ⟨p, List.mem_cons_of_mem _ hp, hpv⟩
    | none =>
      rw [hrest] at h
      by_cases hk : kv.1 = k
      · rw [if_pos hk] at h
        injection h with hv
        exact ⟨kv, List.mem_cons_self _ _, hv⟩
      · rw [if_neg hk] at h
        exact absurd h (by simp)

/-- The first step of extract_name_from_object (source lines 16-17):
return obj.params.name when params is present, is a dict and has the key
name.  There is no check on the type of the value stored under name. -/
def paramsNameLookup (kvs : List (String × Json)) : Option Json :=
  match lookupLast kvs "params" with
  | some (Json.obj pkvs) => lookupLast pkvs "name"
  | _ => none

mutual

/-- Embeds extract_name_from_object (source lines 12-30).  On a dict:
params.name first, then the direct name field, then the loop over
obj.children when present and a list; otherwise Python None (= null). -/
def extract_name_from_object (j : Json) : Json :=
  match j with
  | Json.obj kvs =>
    match paramsNameLookup kvs with
    | some v => v
    | none =>
      match lookupLast kvs "name" with
      | some v => v
      | none =>
        match scanChildrenEntry kvs with
        | some r => r
        | none => Json.null
  | _ => Json.null

/-- The combination of the children lookup and the loop of source lines
24-28, fused into one structural scan so that the recursion is on direct
subterms: the result is the loop's outcome over the last binding of the
key children when that binding is a list, Python None when it is present
but not a list (the isinstance check fails and the function falls through
to return None), and absence when no children key exists.  The lemma
scanChildrenEntry_eq below restates it through the plain dict lookup. -/
def scanChildrenEntry : List (String × Json) → Option Json
  | [] => none
  | (k, v) :: rest =>
    match scanChildrenEntry rest with
    | some r => some r
    | none =>
      if k = "children" then
        match v with
        | Json.arr cs => some (firstTruthyName cs)
        | _ => some Json.null
      else none

/-- The loop in extract_name_from_object over a children list (source lines
24-28): the first recursive result that is truthy is returned; if none is,
the function falls through to return None. -/
def firstTruthyName (cs : List Json) : Json :=
  match cs with
  | [] => Json.null
  | c :: rest =>
    let n := extract_name_from_object c
    if n.truthy then n else firstTruthyName rest

end

theorem lookupLast_cons (k0 : String) (v : Json) (rest : List (String × Json))
    (k : String) :
    lookupLast ((k0, v) :: rest) k =
      (match lookupLast rest k with
       | some w => some w
       | none => if k0 = k then some v else none) := rfl

theorem scanChildrenEntry_cons (k : String) (v : Json)
    (rest : List (String × Json)) :
    scanChildrenEntry ((k, v) :: rest) =
      (match scanChildrenEntry rest with
       | some r => some r
       | none =>
         if k = "children" then
           match v with
           | Json.arr cs => some (firstTruthyName cs)
           | _ => some Json.null
         else none) := by
  cases v <;> simp [scanChildrenEntry]

theorem scanChildrenEntry_eq (kvs : List (String × Json)) :
    scanChildrenEntry kvs =
      (lookupLast kvs "children").map
        (fun v =>
          match v with
          | Json.arr cs => firstTruthyName cs
          | _ => Json.null) := by
  induction kvs with
  | nil => rfl
  | cons kv rest ih =>
    obtain ⟨k, v⟩ := kv
    rw [scanChildrenEntry_cons, lookupLast_cons, ih]
    cases lookupLast rest "children" with
    | some w => rfl
    | none =>
      by_cases hk : k = "children"
      · rw [if_pos hk, if_pos hk]
        cases v <;> rfl
      · rw [if_neg hk, if_neg hk]
        rfl

/-- One entry produced by the loop body of find_named_children (source lines
36-42), for the child at zero-based position i: the extracted name when it
is truthy, else the positional fallback. -/
def namedEntry (i : Nat) (c : Json) : Json × Json :=
  let name := extract_name_from_object c
  if name.truthy then (name, c) else (Json.str ("child_" ++ toString i), c)

/-- The enumeration loop of find_named_children, carrying the running index
of Python's enumerate. -/
def find_named_children_aux (i : Nat) : List Json → List (Json × Json)
  | [] => []
  | c :: cs => namedEntry i c :: find_named_children_aux (i + 1) cs

/-- Embeds find_named_children (source lines 32-44): pair every child with
its resolved name, falling back to child_i when the extractor's result is
falsy.  A fallback name is a Python str; an extracted name is whatever JSON
value the extractor returned. -/
def find_named_children (children : List Json) : List (Json × Json) :=
  find_named_children_aux 0 children

/-- Python str.isalnum restricted to one character, modelled on ASCII. -/
def pyIsAlnumChar (c : Char) : Bool := c.isAlpha || c.isDigit

/-- The character filter of the sanitizer (source line 77): keep c when
c.isalnum() or c is the hyphen or the underscore. -/
def keepChar (c : Char) : Bool := pyIsAlnumChar c || c = '-' || c = '_'

/-- The whitespace set of Python str.rstrip with no argument, on ASCII. -/
def pyIsSpaceChar (c : Char) : Bool :=
  c = ' ' || c = '\t' || c = '\n' || c = '\r' || c = '\x0b' || c = '\x0c'

/-- Python str.rstrip(): drop trailing whitespace characters. -/
def pyRstrip (s : String) : String :=
  String.mk ((s.data.reverse.dropWhile pyIsSpaceChar).reverse)

/-- Python str.isalnum on a whole string: nonempty and every character
alphanumeric. -/
def pyStrIsAlnum (s : String) : Bool := !s.data.isEmpty && s.data.all pyIsAlnumChar

/-- The filter condition of source line 77 applied to a whole string, as it
happens when the iterated name is a list of strings: s.isalnum() or s is
the hyphen or underscore string. -/
def keepStrTok (s : String) : Bool := pyStrIsAlnum s || s = "-" || s = "_"

/-- The join over an iterable of Python values (source line 77) when the
name being sanitized is a sequence: every iterated element must be a str
(otherwise .isalnum() raises AttributeError, modelled as typeError); kept
elements are concatenated. -/
def joinStrTokens : List Json → Except PyExc String
  | [] => Except.ok ""
  | Json.str s :: rest =>
    match joinStrTokens rest with
    | Except.ok r => Except.ok ((if keepStrTok s then s else "") ++ r)
    | Except.error e => Except.error e
  | _ => Except.error PyExc.typeError

/-- Iteration order of the keys of a parsed Python dict: first occurrence
position, duplicates collapsed. -/
def dedupKeysAux (seen : List String) : List String → List String
  | [] => []
  | k :: rest =>
    if seen.contains k then dedupKeysAux seen rest
    else k :: dedupKeysAux (k :: seen) rest

/-- The generator expression of source line 77 evaluated on the resolved
name: iterating a str yields its characters, iterating a list or the keys
of a dict yields Python values that must be str; iterating a number, a
boolean or None raises TypeError. -/
def sanitizeJoin : Json → Except PyExc String
  | Json.str s => Except.ok (String.mk (s.data.filter keepChar))
  | Json.arr xs => joinStrTokens xs
  | Json.obj kvs => joinStrTokens ((dedupKeysAux [] (kvs.map Prod.fst)).map Json.str)
  | _ => Except.error PyExc.typeError

/-- Embeds the filename sanitization of source lines 77-79: filter the
characters of the name, strip trailing whitespace, substitute unnamed for
an empty result.  Raises when the name is not iterable as strings. -/
def sanitize_filename (name : Json) : Except PyExc String :=
  match sanitizeJoin name with
  | Except.ok joined =>
    let stripped := pyRstrip joined
    Except.ok (if stripped = "" then "unnamed" else stripped)
  | Except.error e => Except.error e

/-- Whether the second character list occurs at the head of the first. -/
def charListMatchesAt : List Char → List Char → Bool
  | _, [] => true
  | [], _ :: _ => false
  | a :: as, b :: bs => (a = b) && charListMatchesAt as bs

/-- The Python membership test k in v for a string k (source line 64):
key membership for a dict, value membership for a list, substring test for
a str, TypeError otherwise. -/
def pyContains (k : String) : Json → Except PyExc Bool
  | Json.obj kvs => Except.ok (lookupLast kvs k).isSome
  | Json.arr xs => Except.ok (xs.any (fun x => Json.beq x (Json.str k)))
  | Json.str s =>
    Except.ok ((List.range (s.data.length + 1)).any
      (fun i => charListMatchesAt (s.data.drop i) k.data))
  | _ => Except.error PyExc.typeError

/-- The Python subscript v[k] with a string key (source line 69): dict
lookup, KeyError when absent, TypeError on any non-dict. -/
def pySubscript (j : Json) (k : String) : Except PyExc Json :=
  match j with
  | Json.obj kvs =>
    match lookupLast kvs k with
    | some v => Except.ok v
    | none => Except.error PyExc.keyError
  | _ => Except.error PyExc.typeError

/-- Python iteration over the value bound to children, as performed by the
enumerate of find_named_children: a list yields its elements, a str its
characters as one-character strings, a dict its keys; a number, a boolean
or None raises TypeError. -/
def pyIterate : Json → Except PyExc (List Json)
  | Json.arr xs => Except.ok xs
  | Json.str s => Except.ok (s.data.map (fun c => Json.str (String.mk [c])))
  | Json.obj kvs => Except.ok ((dedupKeysAux [] (kvs.map Prod.fst)).map Json.str)
  | _ => Except.error PyExc.typeError

/-- The single-child document built for each output file (source lines
85-89): layout wrapping a children list holding exactly the one child. -/
def childData (child : Json) : Json :=
  Json.obj [("layout", Json.obj [("children", Json.arr [child])])]

/-- The per-child loop of source lines 74-97, parameterized by the set of
filenames whose open-for-write raises (the only exceptions the inner
try/except catches).  Returns the files successfully written in order,
and the uncaught exception, if any, that aborted the loop: the
sanitization of a name is outside the try/except, so its exception ends
the whole run, while a failing write is caught and skips only its own
file. -/
def writeLoop (failSet : String → Bool) : List (Json × Json) →
    List (String × Json) × Option PyExc
  | [] => ([], none)
  | (name, child) :: rest =>
    match sanitize_filename name with
    | Except.error e => ([], some e)
    | Except.ok safe =>
      let filename := safe ++ ".json"
      let thisWrite := if failSet filename then [] else [(filename, childData child)]
      let (files, exc) := writeLoop failSet rest
      (thisWrite ++ files, exc)

/-- Result of one run of the converter on an already-parsed document:
ok models return True (with the files written), failed models return False
after the schema check, and uncaught models a Python exception that no
handler catches, aborting the run after the listed files were written. -/
inductive Outcome where
  | ok (files : List (String × Json)) : Outcome
  | failed : Outcome
  | uncaught (files : List (String × Json)) : Outcome
deriving Repr

/-- The outcome of reading and json-parsing the input file, abstracting the
file system: the open can fail, the decode can fail, or a JSON value is
produced. -/
inductive ReadResult where
  | notFound : ReadResult
  | badJson : ReadResult
  | parsed (data : Json) : ReadResult

/-- The document-level part of convert_ui_json_to_multiple_files (source
lines 60-97) on a parsed document: evaluate the short-circuit check
layout not in data or children not in data.layout (each membership or
subscript may raise TypeError, which nothing catches), report the schema
error and return False when the check fires, otherwise enumerate the
children and run the write loop. -/
def convertParsed (data : Json) (failSet : String → Bool) : Outcome :=
  match pyContains "layout" data with
  | Except.error _ => Outcome.uncaught []
  | Except.ok false => Outcome.failed
  | Except.ok true =>
    match pySubscript data "layout" with
    | Except.error _ => Outcome.uncaught []
    | Except.ok lay =>
      match pyContains "children" lay with
      | Except.error _ => Outcome.uncaught []
      | Except.ok false => Outcome.failed
      | Except.ok true =>
        match pySubscript lay "children" with
        | Except.error _ => Outcome.uncaught []
        | Except.ok ch =>
          match pyIterate ch with
          | Except.error _ => Outcome.uncaught []
          | Except.ok items =>
            match writeLoop failSet (find_named_children items) with
            | (files, none) => Outcome.ok files
            | (files, some _) => Outcome.uncaught files

/-- Embeds convert_ui_json_to_multiple_files (source lines 46-100): a
missing input file or a JSON decode error is reported and the function
returns False before touching the output directory; otherwise the parsed
document is converted. -/
def convert_ui_json_to_multiple_files (r : ReadResult) (failSet : String → Bool) :
    Outcome :=
  match r with
  | ReadResult.notFound => Outcome.failed
  | ReadResult.badJson => Outcome.failed
  | ReadResult.parsed data => convertParsed data failSet

/-- The process exit code of main (source lines 102-124): 0 when convert
returned True, 1 when it returned False (sys.exit(1)), and 1 when an
uncaught exception terminates the interpreter. -/
def mainExitCode (r : ReadResult) (failSet : String → Bool) : Nat :=
  match convert_ui_json_to_multiple_files r failSet with
  | Outcome.ok _ => 0
  | Outcome.failed => 1
  | Outcome.uncaught _ => 1

/-- The files present on disk after a run, whatever the outcome (a crash
leaves the files written before it). -/
def Outcome.filesOf : Outcome → List (String × Json)
  | Outcome.ok fs => fs
  | Outcome.failed => []
  | Outcome.uncaught fs => fs

/-- One lowercase hexadecimal digit. -/
def hexDigitChar (n : Nat) : Char :=
  if n < 10 then Char.ofNat (48 + n) else Char.ofNat (87 + n)

/-- Escaping of one character by json.dump with ensure_ascii False: only
the quote, the backslash and control characters are escaped. -/
def escChar (c : Char) : String :=
  if c = '"' then "\\\""
  else if c = '\\' then "\\\\"
  else if c = '\n' then "\\n"
  else if c = '\t' then "\\t"
  else if c = '\r' then "\\r"
  else if c = '\x08' then "\\b"
  else if c = '\x0c' then "\\f"
  else if c.toNat < 32 then
    "\\u00" ++ String.mk [hexDigitChar (c.toNat / 16), hexDigitChar (c.toNat % 16)]
  else String.mk [c]

/-- A JSON string literal as written by json.dump. -/
def dumpStr (s : String) : String :=
  "\"" ++ String.join (s.data.map escChar) ++ "\""

/-- An indentation run of n spaces. -/
def spacesStr (n : Nat) : String := String.mk (List.replicate n ' ')

mutual

/-- The text produced by json.dump(child_data, f, indent=2,
ensure_ascii=False) for a value sitting at indentation level ind
(source line 93).  Deterministic in the value. -/
def dumpJson (ind : Nat) : Json → String
  | Json.null => "null"
  | Json.bool b => if b then "true" else "false"
  | Json.num n => toString n
  | Json.str s => dumpStr s
  | Json.arr xs =>
    if xs.isEmpty then "[]"
    else "[\n" ++ dumpList (ind + 2) xs ++ "\n" ++ spacesStr ind ++ "]"
  | Json.obj kvs =>
    if kvs.isEmpty then "\x7b\x7d"
    else "\x7b\n" ++ dumpEntries (ind + 2) kvs ++ "\n" ++ spacesStr ind ++ "\x7d"
termination_by j => sizeOf j
decreasing_by
  all_goals simp only [Json.arr.sizeOf_spec, Json.obj.sizeOf_spec]
  all_goals omega

/-- Array elements, one per line, comma separated. -/
def dumpList (ind : Nat) : List Json → String
  | [] => ""
  | [x] => spacesStr ind ++ dumpJson ind x
  | x :: y :: rest =>
    spacesStr ind ++ dumpJson ind x ++ ",\n" ++ dumpList ind (y :: rest)
termination_by xs => sizeOf xs
decreasing_by
  all_goals simp only [List.cons.sizeOf_spec]
  all_goals omega

/-- Object entries, one per line, comma separated, key colon space value. -/
def dumpEntries (ind : Nat) : List (String × Json) → String
  | [] => ""
  | [(k, v)] => spacesStr ind ++ dumpStr k ++ ": " ++ dumpJson ind v
  | (k, v) :: e :: rest =>
    spacesStr ind ++ dumpStr k ++ ": " ++ dumpJson ind v ++ ",\n" ++
      dumpEntries ind (e :: rest)
termination_by kvs => sizeOf kvs
decreasing_by
  all_goals simp only [List.cons.sizeOf_spec, Prod.mk.sizeOf_spec]
  all_goals omega

end

/-- The byte content written for each produced file of a run. -/
def serializeWrites (files : List (String × Json)) : List (String × String) :=
  files.map (fun p => (p.1, dumpJson 0 p.2))

/-- A file system updated by a sequence of whole-file writes, each
overwriting the target path. -/
def applyWrites (fs : String → Option String) :
    List (String × String) → (String → Option String)
  | [] => fs
  | w :: ws => applyWrites (fun n => if n = w.1 then some w.2 else fs n) ws

/-- The content of the last write to path n in the write sequence. -/
def lastWrittenVal (ws : List (String × String)) (n : String) : Option String :=
  match ws with
  | [] => none
  | w :: rest =>
    match lastWrittenVal rest n with
    | some v => some v
    | none => if n = w.1 then some w.2 else none

/-- The write oracle of a run in which every open-for-write succeeds. -/
def noFailWrites : String → Bool := fun _ => false

/-- The sanitized token of a resolved name, defaulting to the empty string
when sanitization raises; used only where a hypothesis rules raising out. -/
def sanitizedName (n : Json) : String :=
  match sanitize_filename n with
  | Except.ok s => s
  | Except.error _ => ""

/-- The write planned for one named child: its sanitized filename with the
json suffix, and its single-child document. -/
def plannedFile (p : Json × Json) : String × Json :=
  (sanitizedName p.1 ++ ".json", childData p.2)

theorem extract_name_obj (kvs : List (String × Json)) :
    extract_name_from_object (Json.obj kvs) =
      (match paramsNameLookup kvs with
       | some v => v
       | none =>
         match lookupLast kvs "name" with
         | some v => v
         | none =>
           match scanChildrenEntry kvs with
           | some r => r
           | none => Json.null) := by
  cases hp : paramsNameLookup kvs with
  | some v => simp [extract_name_from_object, hp]
  | none =>
    cases hn : lookupLast kvs "name" with
    | some v => simp [extract_name_from_object, hp, hn]
    | none =>
      cases hc : scanChildrenEntry kvs with
      | some r => simp [extract_name_from_object, hp, hn, hc]
      | none => simp [extract_name_from_object, hp, hn, hc]

theorem firstTruthyName_cons (c : Json) (rest : List Json) :
    firstTruthyName (c :: rest) =
      (if (extract_name_from_object c).truthy then extract_name_from_object c
       else firstTruthyName rest) := by
  rw [firstTruthyName]

theorem find_named_children_aux_length (cs : List Json) :
    ∀ i, (find_named_children_aux i cs).length = cs.length := by
  induction cs with
  | nil => intro i; rfl
  | cons c rest ih =>
    intro i
    rw [find_named_children_aux, List.length_cons, List.length_cons, ih]

theorem find_named_children_aux_get (cs : List Json) :
    ∀ (i j : Nat) (h : j < cs.length)
      (h2 : j < (find_named_children_aux i cs).length),
      (find_named_children_aux i cs).get ⟨j, h2⟩ =
        namedEntry (i + j) (cs.get ⟨j, h⟩) := by
  induction cs with
  | nil => intro i j h h2; exact absurd h (by simp)
  | cons c rest ih =>
    intro i j h h2
    cases j with
    | zero => rfl
    | succ j0 =>
      have hr : j0 < rest.length := by
        simpa [Nat.succ_lt_succ_iff] using h
      have hr2 : j0 < (find_named_children_aux (i + 1) rest).length := by
        rw [find_named_children_aux_length]; exact hr
      have := ih (i + 1) j0 hr hr2
      simp only [find_named_children_aux, List.get_cons_succ, this]
      congr 1
      omega

theorem find_named_children_aux_mem (cs : List Json) :
    ∀ (i : Nat) (p : Json × Json), p ∈ find_named_children_aux i cs →
      ∃ c ∈ cs, ∃ k, p = namedEntry k c := by
  induction cs with
  | nil => intro i p hp; exact absurd hp (by simp [find_named_children_aux])
  | cons c rest ih =>
    intro i p hp
    rw [find_named_children_aux] at hp
    rcases List.mem_cons.mp hp with hp1 | hp2
    · exact ⟨c, List.mem_cons_self _ _, i, hp1⟩
    · obtain ⟨c0, hc0, k, hk⟩ := ih (i + 1) p hp2
      exact ⟨c0, List.mem_cons_of_mem _ hc0, k, hk⟩

theorem writeLoop_ok (failSet : String → Bool) (named : List (Json × Json))
    (h : ∀ p ∈ named, (sanitize_filename p.1).isOk = true) :
    writeLoop failSet named =
      ((named.map plannedFile).filter (fun w => !failSet w.1), none) := by
  induction named with
  | nil => rfl
  | cons q rest ih =>
    obtain ⟨name, child⟩ := q
    have hq := h (name, child) (List.mem_cons_self _ _)
    have hrest : ∀ p ∈ rest, (sanitize_filename p.1).isOk = true :=
      fun p hp => h p (List.mem_cons_of_mem _ hp)
    cases hs : sanitize_filename name with
    | error e => rw [hs] at hq; exact absurd hq (by simp [Except.isOk, Except.toBool])
    | ok safe =>
      rw [writeLoop, hs, ih hrest]
      have hname : sanitizedName name = safe := by
        simp [sanitizedName, hs]
      by_cases hf : failSet (safe ++ ".json")
      · simp [plannedFile, hname, List.filter_cons, hf, childData]
      · simp [plannedFile, hname, List.filter_cons, hf, childData]

theorem writeLoop_files_mem (failSet : String → Bool)
    (named : List (Json × Json)) :
    ∀ w ∈ (writeLoop failSet named).1, ∃ p ∈ named, w = plannedFile p := by
  induction named with
  | nil => intro w hw; exact absurd hw (by simp [writeLoop])
  | cons q rest ih =>
    obtain ⟨name, child⟩ := q
    intro w hw
    rw [writeLoop] at hw
    cases hs : sanitize_filename name with
    | error e => rw [hs] at hw; exact absurd hw (by simp)
    | ok safe =>
      rw [hs] at hw
      simp only at hw
      rcases List.mem_append.mp hw with hw1 | hw2
      · by_cases hf : failSet (safe ++ ".json")
        · rw [if_pos hf] at hw1
          exact absurd hw1 (by simp)
        · rw [if_neg hf] at hw1
          have hw1 : w = (safe ++ ".json", childData child) := by
            simpa using hw1
          refine ⟨(name, child), List.mem_cons_self _ _, ?_⟩
          simp [plannedFile, sanitizedName, hs, hw1]
      · obtain ⟨p, hp, hpw⟩ := ih w hw2
        exact ⟨p, List.mem_cons_of_mem _ hp, hpw⟩

theorem convertParsed_valid (kvs lkvs : List (String × Json)) (cs : List Json)
    (failSet : String → Bool)
    (h1 : lookupLast kvs "layout" = some (Json.obj lkvs))
    (h2 : lookupLast lkvs "children" = some (Json.arr cs)) :
    convertParsed (Json.obj kvs) failSet =
      (match writeLoop failSet (find_named_children cs) with
       | (files, none) => Outcome.ok files
       | (files, some _) => Outcome.uncaught files) := by
  simp [convertParsed, pyContains, pySubscript, pyIterate, h1, h2]

theorem applyWrites_eq (ws : List (String × String)) :
    ∀ (fs : String → Option String) (n : String),
      applyWrites fs ws n =
        match lastWrittenVal ws n with
        | some v => some v
        | none => fs n := by
  induction ws with
  | nil => intro fs n; rfl
  | cons w rest ih =>
    intro fs n
    rw [applyWrites, ih]
    rw [lastWrittenVal]
    cases lastWrittenVal rest n with
    | some v => rfl
    | none =>
      by_cases hn : n = w.1
      · simp [hn]
      · simp [hn]

theorem keepChar_not_space (c : Char) (hk : keepChar c = true) :
    pyIsSpaceChar c = false := by
  by_contra hs
  have hs2 : pyIsSpaceChar c = true := by
    cases h : pyIsSpaceChar c
    · exact absurd h hs
    · rfl
  simp only [pyIsSpaceChar, Bool.or_eq_true, decide_eq_true_eq] at hs2
  rcases hs2 with ((((h1 | h2) | h3) | h4) | h5) | h6
  · subst h1; exact absurd hk (by decide)
  · subst h2; exact absurd hk (by decide)
  · subst h3; exact absurd hk (by decide)
  · subst h4; exact absurd hk (by decide)
  · subst h5; exact absurd hk (by decide)
  · subst h6; exact absurd hk (by decide)

theorem pyRstrip_of_all_keep (m : List Char) (h : ∀ c ∈ m, keepChar c = true) :
    pyRstrip (String.mk m) = String.mk m := by
  have hd : List.dropWhile pyIsSpaceChar m.reverse = m.reverse := by
    cases hm : m.reverse with
    | nil => rfl
    | cons a t =>
      have ha : a ∈ m := by
        have h0 : a ∈ m.reverse := by rw [hm]; exact List.mem_cons_self _ _
        simpa using h0
      have hka := keepChar_not_space a (h a ha)
      simp [List.dropWhile_cons, hka]
  show String.mk ((List.dropWhile pyIsSpaceChar m.reverse).reverse) = String.mk m
  rw [hd, List.reverse_reverse]

theorem string_mk_eq_empty_iff (l : List Char) :
    (String.mk l = "") ↔ l = [] := by
  constructor
  · intro h
    have := congrArg String.data h
    simpa using this
  · intro h
    rw [h]

/-- C1: for every child object, name resolution checks params.name first
(whenever params is a mapping with a name entry), then the top-level name
field, then the recursive scan over the children sequence which returns the
first truthy (non-empty) result in order, and the positional fallback
child_j with the zero-based index j is used when no name is found; the
child whose params mapping carries the name "A" and whose top-level name is
"B" resolves to "A". -/
theorem c1_name_resolution_order :
    (∀ (kvs pkvs : List (String × Json)) (v : Json),
        lookupLast kvs "params" = some (Json.obj pkvs) →
        lookupLast pkvs "name" = some v →
        extract_name_from_object (Json.obj kvs) = v)
    ∧ (∀ (kvs : List (String × Json)) (v : Json),
        paramsNameLookup kvs = none →
        lookupLast kvs "name" = some v →
        extract_name_from_object (Json.obj kvs) = v)
    ∧ (∀ (kvs : List (String × Json)) (cs : List Json),
        paramsNameLookup kvs = none →
        lookupLast kvs "name" = none →
        lookupLast kvs "children" = some (Json.arr cs) →
        extract_name_from_object (Json.obj kvs) = firstTruthyName cs)
    ∧ (∀ (c : Json) (rest : List Json),
        (extract_name_from_object c).truthy = true →
        firstTruthyName (c :: rest) = extract_name_from_object c)
    ∧ (∀ (children : List Json) (j : Nat) (h : j < children.length)
        (h2 : j < (find_named_children children).length),
        extract_name_from_object (children.get ⟨j, h⟩) = Json.null →
        (find_named_children children).get ⟨j, h2⟩ =
          (Json.str ("child_" ++ toString j), children.get ⟨j, h⟩))
    ∧ extract_name_from_object
        (Json.obj [("params", Json.obj [("name", Json.str "A")]),
                   ("name", Json.str "B")]) = Json.str "A" := by
  refine ⟨?_, ?_, ?_, ?_, ?_, rfl⟩
  · intro kvs pkvs v h1 h2
    simp [extract_name_obj, paramsNameLookup, h1, h2]
  · intro kvs v hp hn
    simp [extract_name_obj, hp, hn]
  · intro kvs cs hp hn hch
    simp [extract_name_obj, hp, hn, scanChildrenEntry_eq, hch]
  · intro c rest ht
    rw [firstTruthyName_cons, if_pos ht]
  · intro children j h h2 hnull
    simp only [find_named_children] at h2 ⊢
    rw [find_named_children_aux_get children 0 j h h2]
    simp only [List.get_eq_getElem] at hnull
    simp [namedEntry, hnull, Json.truthy]

theorem c1_name_resolution_order_witness :
    extract_name_from_object (Json.obj [("name", Json.str "B")]) = Json.str "B"
    ∧ (find_named_children [Json.obj []]).get ⟨0, by decide⟩ =
        (Json.str "child_0", Json.obj []) := by
  constructor
  · exact c1_name_resolution_order.2.1 [("name", Json.str "B")] (Json.str "B") rfl rfl
  · exact c1_name_resolution_order.2.2.2.2.1 [Json.obj []] 0 (by decide) (by decide) rfl

/-- C2: the claim says the params.name step applies only when the stored
value is text; the code checks only the presence of the key, so on a child
whose params mapping stores the number 5 under name the step applies and
returns that number instead of leaving the name unresolved (Python None). -/
theorem c2_nontext_params_name_counterexample :
    extract_name_from_object
      (Json.obj [("params", Json.obj [("name", Json.num 5)])]) = Json.num 5
    ∧ extract_name_from_object
        (Json.obj [("params", Json.obj [("name", Json.num 5)])]) ≠ Json.null := by
  refine ⟨rfl, ?_⟩
  intro h
  rw [show extract_name_from_object
        (Json.obj [("params", Json.obj [("name", Json.num 5)])]) = Json.num 5
      from rfl] at h
  exact Json.noConfusion h

/-- C2 amended: the first step of name resolution uses params.name whenever
params is a mapping containing any value under the key name, whatever the
type of that value. -/
theorem c2_params_name_any_value (kvs pkvs : List (String × Json)) (v : Json)
    (h1 : lookupLast kvs "params" = some (Json.obj pkvs))
    (h2 : lookupLast pkvs "name" = some v) :
    extract_name_from_object (Json.obj kvs) = v := by
  simp [extract_name_obj, paramsNameLookup, h1, h2]

theorem c2_params_name_any_value_witness :
    extract_name_from_object
      (Json.obj [("params", Json.obj [("name", Json.bool true)])]) =
      Json.bool true :=
  c2_params_name_any_value _ _ _ rfl rfl

/-- C3: the filename sanitizer keeps exactly the alphanumeric characters,
hyphens and underscores of a text name, in order, drops everything else,
and substitutes unnamed for an empty filtered result; the name
"My Button!#1" sanitizes to "MyButton1". -/
theorem c3_sanitizer_policy :
    (∀ s : String,
      sanitize_filename (Json.str s) =
        Except.ok
          (if (s.data.filter keepChar).isEmpty then "unnamed"
           else String.mk (s.data.filter keepChar)))
    ∧ sanitize_filename (Json.str "My Button!#1") = Except.ok "MyButton1" := by
  constructor
  · intro s
    have hall : ∀ c ∈ s.data.filter keepChar, keepChar c = true :=
      fun c hc => (List.mem_filter.mp hc).2
    simp only [sanitize_filename, sanitizeJoin]
    rw [pyRstrip_of_all_keep _ hall]
    by_cases he : s.data.filter keepChar = []
    · rw [if_pos ((string_mk_eq_empty_iff _).mpr he), if_pos (by simp [he])]
    · rw [if_neg (fun hcon => he ((string_mk_eq_empty_iff _).mp hcon)),
        if_neg (by simp [he])]
  · rfl

/-- C10: a falsy resolved name (empty text, null, false, the number 0) is
treated as absence: the positional fallback child_j is used for such a
child, and the recursive scan skips a falsy result in favour of a later
child whose result is truthy. -/
theorem c10_falsy_names :
    ((Json.str "").truthy = false ∧ Json.null.truthy = false ∧
     (Json.bool false).truthy = false ∧ (Json.num 0).truthy = false)
    ∧ (∀ (children : List Json) (j : Nat) (h : j < children.length)
        (h2 : j < (find_named_children children).length),
        (extract_name_from_object (children.get ⟨j, h⟩)).truthy = false →
        (find_named_children children).get ⟨j, h2⟩ =
          (Json.str ("child_" ++ toString j), children.get ⟨j, h⟩))
    ∧ (∀ (c : Json) (rest : List Json),
        (extract_name_from_object c).truthy = false →
        firstTruthyName (c :: rest) = firstTruthyName rest)
    ∧ (∀ (c c2 : Json) (rest : List Json),
        (extract_name_from_object c).truthy = false →
        (extract_name_from_object c2).truthy = true →
        firstTruthyName (c :: c2 :: rest) = extract_name_from_object c2) := by
  refine ⟨by decide, ?_, ?_, ?_⟩
  · intro children j h h2 hfalsy
    simp only [find_named_children] at h2 ⊢
    rw [find_named_children_aux_get children 0 j h h2]
    simp only [List.get_eq_getElem] at hfalsy
    simp [namedEntry, hfalsy]
  · intro c rest hf
    rw [firstTruthyName_cons, if_neg (by simp [hf])]
  · intro c c2 rest hf ht
    rw [firstTruthyName_cons, if_neg (by simp [hf]), firstTruthyName_cons,
      if_pos ht]

theorem c10_falsy_names_witness :
    (find_named_children [Json.obj [("name", Json.str "")]]).get ⟨0, by decide⟩ =
      (Json.str "child_0", Json.obj [("name", Json.str "")])
    ∧ firstTruthyName
        [Json.obj [("name", Json.null)], Json.obj [("name", Json.str "x")]] =
        Json.str "x" := by
  constructor
  · exact c10_falsy_names.2.1 _ 0 (by decide) (by decide) (by decide)
  · exact c10_falsy_names.2.2.2 _ _ [] (by decide) (by decide)

theorem namedEntry_snd (i : Nat) (c : Json) : (namedEntry i c).2 = c := by
  rw [namedEntry]
  split
  · rfl
  · rfl

theorem find_named_children_length (cs : List Json) :
    (find_named_children cs).length = cs.length := by
  rw [find_named_children, find_named_children_aux_length]

theorem string_append_right_cancel (a b t : String) (h : a ++ t = b ++ t) :
    a = b := by
  have hd := congrArg String.data h
  simp only [String.data_append] at hd
  have hab := List.append_cancel_right hd
  cases a with
  | mk da =>
    cases b with
    | mk db =>
      have hd2 : da = db := by simpa using hab
      rw [hd2]

/-- C4 counterexample: on the parsed mapping whose layout value is the
number 5 (a wrong shape), the conversion does not report the schema error
and return failure: the membership test children in 5 raises an uncaught
TypeError before anything is written. -/
theorem c4_wrong_shape_counterexample :
    convertParsed (Json.obj [("layout", Json.num 5)]) noFailWrites =
      Outcome.uncaught []
    ∧ convertParsed (Json.obj [("layout", Json.num 5)]) noFailWrites ≠
        Outcome.failed := by
  refine ⟨rfl, ?_⟩
  intro h
  rw [show convertParsed (Json.obj [("layout", Json.num 5)]) noFailWrites =
        Outcome.uncaught [] from rfl] at h
  exact Outcome.noConfusion h

/-- C4 amended: for every parsed document that is a mapping, if the key
layout is absent, or if layout's value is a mapping lacking the key
children, convert reports the schema error and returns failure before any
output file is written; when layout's value is not a container the
membership test raises an uncaught TypeError instead. -/
theorem c4_schema_failure (kvs : List (String × Json)) (failSet : String → Bool) :
    (lookupLast kvs "layout" = none →
      convertParsed (Json.obj kvs) failSet = Outcome.failed)
    ∧ (∀ lkvs : List (String × Json),
        lookupLast kvs "layout" = some (Json.obj lkvs) →
        lookupLast lkvs "children" = none →
        convertParsed (Json.obj kvs) failSet = Outcome.failed)
    ∧ Outcome.failed.filesOf = [] := by
  refine ⟨?_, ?_, rfl⟩
  · intro h
    simp [convertParsed, pyContains, h]
  · intro lkvs h1 h2
    simp [convertParsed, pyContains, pySubscript, h1, h2]

theorem c4_schema_failure_witness :
    convertParsed (Json.obj [("layout", Json.obj [("x", Json.null)])])
      noFailWrites = Outcome.failed :=
  (c4_schema_failure [("layout", Json.obj [("x", Json.null)])]
    noFailWrites).2.1 [("x", Json.null)] rfl rfl

/-- C5: a valid document whose layout.children sequence has N elements,
whose resolved names all sanitize, and whose sanitized names are pairwise
distinct, converts with all writes succeeding to exactly N output files
with pairwise distinct filenames, each holding the single-child document
of one child. -/
theorem c5_output_count (kvs lkvs : List (String × Json)) (cs : List Json)
    (h1 : lookupLast kvs "layout" = some (Json.obj lkvs))
    (h2 : lookupLast lkvs "children" = some (Json.arr cs))
    (hok : ∀ p ∈ find_named_children cs, (sanitize_filename p.1).isOk = true)
    (hdist : ((find_named_children cs).map (fun p => sanitizedName p.1)).Nodup) :
    ∃ files,
      convertParsed (Json.obj kvs) noFailWrites = Outcome.ok files
      ∧ files.length = cs.length
      ∧ (files.map Prod.fst).Nodup
      ∧ ∀ w ∈ files, ∃ c, w.2 = childData c := by
  rw [convertParsed_valid kvs lkvs cs noFailWrites h1 h2,
    writeLoop_ok noFailWrites _ hok]
  have hfilter :
      (((find_named_children cs).map plannedFile).filter
        (fun w => !noFailWrites w.1)) =
      (find_named_children cs).map plannedFile := by
    simp [noFailWrites]
  rw [hfilter]
  refine ⟨_, rfl, ?_, ?_, ?_⟩
  · rw [List.length_map, find_named_children_length]
  · have hmaps :
        ((find_named_children cs).map plannedFile).map Prod.fst =
          ((find_named_children cs).map (fun p => sanitizedName p.1)).map
            (fun s => s ++ ".json") := by
      simp [plannedFile, List.map_map, Function.comp]
    rw [hmaps]
    exact hdist.map (fun a b hab => string_append_right_cancel a b ".json" hab)
  · intro w hw
    obtain ⟨p, hp, hpw⟩ := List.mem_map.mp hw
    exact ⟨p.2, by rw [← hpw]; rfl⟩

theorem c5_output_count_witness :
    ∃ files,
      convertParsed
        (Json.obj [("layout", Json.obj [("children",
          Json.arr [Json.obj [("name", Json.str "a")], Json.obj []])])])
        noFailWrites = Outcome.ok files
      ∧ files.length =
          ([Json.obj [("name", Json.str "a")], Json.obj []] : List Json).length
      ∧ (files.map Prod.fst).Nodup
      ∧ ∀ w ∈ files, ∃ c, w.2 = childData c :=
  c5_output_count [("layout", Json.obj [("children",
      Json.arr [Json.obj [("name", Json.str "a")], Json.obj []])])]
    [("children", Json.arr [Json.obj [("name", Json.str "a")], Json.obj []])]
    [Json.obj [("name", Json.str "a")], Json.obj []]
    rfl rfl
    (by
      intro p hp
      rw [show find_named_children
            [Json.obj [("name", Json.str "a")], Json.obj []] =
          [(Json.str "a", Json.obj [("name", Json.str "a")]),
           (Json.str "child_1", Json.obj [])] from rfl] at hp
      rcases List.mem_cons.mp hp with h | h2
      · subst h; decide
      · rcases List.mem_cons.mp h2 with h | h3
        · subst h; decide
        · exact absurd h3 (by simp))
    (by decide)

/-- C6: every output file successfully written by a run on a valid document
holds exactly the document layout wrapping a children list with one child,
and that child equals, by value, one of the original children of the
input. -/
theorem c6_round_trip (kvs lkvs : List (String × Json)) (cs : List Json)
    (failSet : String → Bool)
    (h1 : lookupLast kvs "layout" = some (Json.obj lkvs))
    (h2 : lookupLast lkvs "children" = some (Json.arr cs)) :
    ∀ w ∈ (convertParsed (Json.obj kvs) failSet).filesOf,
      ∃ c ∈ cs,
        w.2 = Json.obj [("layout", Json.obj [("children", Json.arr [c])])] := by
  intro w hw
  rw [convertParsed_valid kvs lkvs cs failSet h1 h2] at hw
  have hmem : w ∈ (writeLoop failSet (find_named_children cs)).1 := by
    revert hw
    cases hwl : writeLoop failSet (find_named_children cs) with
    | mk files exc =>
      cases exc with
      | none => intro hw; simpa [Outcome.filesOf] using hw
      | some e => intro hw; simpa [Outcome.filesOf] using hw
  obtain ⟨p, hp, hpw⟩ :=
    writeLoop_files_mem failSet (find_named_children cs) w hmem
  obtain ⟨c, hc, k, hk⟩ :=
    find_named_children_aux_mem cs 0 p (by simpa [find_named_children] using hp)
  refine ⟨c, hc, ?_⟩
  rw [hpw, hk]
  show childData (namedEntry k c).2 = _
  rw [namedEntry_snd]
  rfl

theorem c6_round_trip_witness :
    ∃ c ∈ [Json.obj [("k", Json.num 1)]],
      (("child_0.json", childData (Json.obj [("k", Json.num 1)])) :
          String × Json).2 =
        Json.obj [("layout", Json.obj [("children", Json.arr [c])])] :=
  c6_round_trip [("layout", Json.obj [("children",
      Json.arr [Json.obj [("k", Json.num 1)]])])]
    [("children", Json.arr [Json.obj [("k", Json.num 1)]])]
    [Json.obj [("k", Json.num 1)]] noFailWrites rfl rfl
    ("child_0.json", childData (Json.obj [("k", Json.num 1)]))
    (by exact List.mem_singleton_self _)

/-- The parsed document used to exhibit the uncaught sanitization failure
of a resolved name that is a number: one child whose params mapping stores
the number 5 under name. -/
def crashDoc : Json :=
  Json.obj [("layout", Json.obj [("children",
    Json.arr [Json.obj [("name", Json.num 5)]])])]

/-- C7 counterexample: on this parsed document every document-level step
succeeds (the structure checks pass), yet the conversion does not return
success: the resolved name is the number 5, its sanitization raises an
uncaught TypeError and the process exits 1 instead of 0. -/
theorem c7_exit_code_counterexample :
    pyContains "layout" crashDoc = Except.ok true
    ∧ pySubscript crashDoc "layout" =
        Except.ok (Json.obj [("children",
          Json.arr [Json.obj [("name", Json.num 5)]])])
    ∧ pyContains "children"
        (Json.obj [("children", Json.arr [Json.obj [("name", Json.num 5)]])]) =
        Except.ok true
    ∧ convert_ui_json_to_multiple_files (ReadResult.parsed crashDoc) noFailWrites =
        Outcome.uncaught []
    ∧ mainExitCode (ReadResult.parsed crashDoc) noFailWrites = 1 :=
  ⟨rfl, rfl, rfl, rfl, rfl⟩

/-- C7 amended: per-file write failures are caught one by one, skip only
their own file and leave the result untouched; a missing input file or a
JSON decode error returns failure and exits 1; and when the document-level
steps succeed and every resolved name sanitizes without raising, the
conversion returns success and exits 0 whatever the set of failing writes,
the written files being exactly the planned ones whose write does not
fail.  When some resolved name does not sanitize, the run instead aborts
with an uncaught exception (see the counterexample). -/
theorem c7_exit_codes :
    (∀ failSet : String → Bool,
      convert_ui_json_to_multiple_files ReadResult.notFound failSet =
        Outcome.failed
      ∧ mainExitCode ReadResult.notFound failSet = 1)
    ∧ (∀ failSet : String → Bool,
      convert_ui_json_to_multiple_files ReadResult.badJson failSet =
        Outcome.failed
      ∧ mainExitCode ReadResult.badJson failSet = 1)
    ∧ (∀ (kvs lkvs : List (String × Json)) (cs : List Json)
        (failSet : String → Bool),
        lookupLast kvs "layout" = some (Json.obj lkvs) →
        lookupLast lkvs "children" = some (Json.arr cs) →
        (∀ p ∈ find_named_children cs, (sanitize_filename p.1).isOk = true) →
        convert_ui_json_to_multiple_files (ReadResult.parsed (Json.obj kvs))
            failSet =
          Outcome.ok
            (((find_named_children cs).map plannedFile).filter
              (fun w => !failSet w.1))
        ∧ mainExitCode (ReadResult.parsed (Json.obj kvs)) failSet = 0) := by
  refine ⟨fun _ => ⟨rfl, rfl⟩, fun _ => ⟨rfl, rfl⟩, ?_⟩
  intro kvs lkvs cs failSet h1 h2 hok
  have hc : convertParsed (Json.obj kvs) failSet =
      Outcome.ok
        (((find_named_children cs).map plannedFile).filter
          (fun w => !failSet w.1)) := by
    rw [convertParsed_valid kvs lkvs cs failSet h1 h2,
      writeLoop_ok failSet _ hok]
  exact ⟨hc, by simp [mainExitCode, convert_ui_json_to_multiple_files, hc]⟩

/-- The write oracle of a run in which only the file a.json cannot be
opened for writing. -/
def failOnAJson : String → Bool := fun n => n == "a.json"

theorem c7_exit_codes_witness :
    convert_ui_json_to_multiple_files
      (ReadResult.parsed (Json.obj [("layout", Json.obj [("children",
        Json.arr [Json.obj [("name", Json.str "a")], Json.obj []])])]))
      failOnAJson =
      Outcome.ok [("child_1.json", childData (Json.obj []))]
    ∧ mainExitCode
        (ReadResult.parsed (Json.obj [("layout", Json.obj [("children",
          Json.arr [Json.obj [("name", Json.str "a")], Json.obj []])])]))
        failOnAJson = 0 := by
  have h := c7_exit_codes.2.2
    [("layout", Json.obj [("children",
      Json.arr [Json.obj [("name", Json.str "a")], Json.obj []])])]
    [("children", Json.arr [Json.obj [("name", Json.str "a")], Json.obj []])]
    [Json.obj [("name", Json.str "a")], Json.obj []]
    failOnAJson rfl rfl
    (by
      intro p hp
      rw [show find_named_children
            [Json.obj [("name", Json.str "a")], Json.obj []] =
          [(Json.str "a", Json.obj [("name", Json.str "a")]),
           (Json.str "child_1", Json.obj [])] from rfl] at hp
      rcases List.mem_cons.mp hp with hh | h2
      · subst hh; decide
      · rcases List.mem_cons.mp h2 with hh | h3
        · subst hh; decide
        · exact absurd h3 (by simp))
  exact ⟨h.1.trans (by rfl), h.2⟩

/-- C8: the conversion is a function of the parsed input, so a second run
on the same input with all writes succeeding produces the same write list
with the same serialized bytes, and replaying that write list over the
file system left by the first run changes nothing: output files are
byte-identical across the two runs. -/
theorem c8_idempotent (r : ReadResult) (fs : String → Option String) :
    applyWrites
      (applyWrites fs
        (serializeWrites
          (convert_ui_json_to_multiple_files r noFailWrites).filesOf))
      (serializeWrites
        (convert_ui_json_to_multiple_files r noFailWrites).filesOf) =
    applyWrites fs
      (serializeWrites
        (convert_ui_json_to_multiple_files r noFailWrites).filesOf) := by
  funext n
  generalize serializeWrites
    (convert_ui_json_to_multiple_files r noFailWrites).filesOf = ws
  rw [applyWrites_eq, applyWrites_eq]
  cases lastWrittenVal ws n with
  | some v => rfl
  | none => rfl

/-- The valid parsed document on which the sanitization of the second
child's resolved name (the number 7, found under params.name) raises: the
first child is written, the run then aborts, the third child is never
processed. -/
def partialCrashDoc : Json :=
  Json.obj [("layout", Json.obj [("children", Json.arr
    [Json.obj [("name", Json.str "ok")],
     Json.obj [("params", Json.obj [("name", Json.num 7)])],
     Json.obj [("name", Json.str "later")]])])]

/-- C9: sanitizing the non-text resolved name 7 raises TypeError; on the
document above the run writes only the first child's file, aborts before
the second and third, is not caught by the per-file write handler (the
outcome is an uncaught exception, not a logged write failure), and does
not produce the reported failure result of the document-level checks; the
interpreter exits 1. -/
theorem c9_nontext_name_crash :
    sanitize_filename (Json.num 7) = Except.error PyExc.typeError
    ∧ convert_ui_json_to_multiple_files (ReadResult.parsed partialCrashDoc)
        noFailWrites =
        Outcome.uncaught
          [("ok.json", childData (Json.obj [("name", Json.str "ok")]))]
    ∧ convert_ui_json_to_multiple_files (ReadResult.parsed partialCrashDoc)
        noFailWrites ≠ Outcome.failed
    ∧ mainExitCode (ReadResult.parsed partialCrashDoc) noFailWrites = 1 := by
  refine ⟨rfl, rfl, ?_, rfl⟩
  intro h
  rw [show convert_ui_json_to_multiple_files (ReadResult.parsed partialCrashDoc)
        noFailWrites =
      Outcome.uncaught
        [("ok.json", childData (Json.obj [("name", Json.str "ok")]))]
      from rfl] at h
  exact Outcome.noConfusion h
